import Mathlib

/-!
Verification of the VCA telemetry delivery pipeline.

This file gives a shallow embedding, in Lean, of the core of the repository:

* `src/msg/msg.py` — the sample aggregator (`MsgQueueMgr`, `MsgQueue`, `Msg`)
  and the transport worker event loop (`IoLoop`);
* `src/inject/inject.py` and `src/varcol/varcol.py` — the sample collector
  (`VarCollector.collect`, `VarCollector.trace_dispatch`).

Pure Python functions become Lean functions; the stateful worker loop becomes
an explicit step function over a state record driven by an event list
(one event per loop tick or broker-acknowledgment callback).  Python dicts
become association lists, Python exceptions become `Except`.
-/

set_option autoImplicit false

namespace VCA

/-- A Python runtime value, as far as the pipeline inspects one: the code
only ever compares values for equality (`one_var.value == 'EOF'`,
`msg.primary == last_msg.primary`), so a small inductive with decidable
equality suffices. `vnone` is Python's `None` (also the `'None'`-free default
of a failed `eval_var`). -/
inductive Value where
  | vstr (s : String)
  | vint (n : Int)
  | vnone
deriving DecidableEq

/-- Embeds `Msg.__init__` / `Msg.get_v` (src/msg/msg.py:169-187): one
collected variable observation.  Missing keyword arguments default to the
string `'None'` in the source; callers of the embedding pass the defaulted
values directly. -/
structure Msg where
  idx : Value
  event : Value
  value : Value
  primary : Value
deriving DecidableEq

/-- The per-sample dict built by `Msg.get_v` (src/msg/msg.py:180-187). -/
structure SampleV where
  primary : Value
  event : Value
  value : Value
deriving DecidableEq

def Msg.get_v (m : Msg) : SampleV :=
  { primary := m.primary, event := m.event, value := m.value }

/-- Embeds `MsgQueue` (src/msg/msg.py:189-253): the per-index observation
slot, holding static metadata and the list of retained samples
(`self.queue`). -/
structure MsgQueue where
  idx : Value
  fname : String
  lineno : Nat
  cond : String
  varE : String
  primaryE : String
  context : String
  queue : List Msg
deriving DecidableEq

/-- The body of `MsgQueue.append` (src/msg/msg.py:213-223) acting on the
retained-sample list: if the list is non-empty and the new sample's primary
key equals the last retained sample's, the new sample replaces the last one;
otherwise it is appended at the end. -/
def pushLast (l : List Msg) (m : Msg) : List Msg :=
  match l.getLast? with
  | some last_msg => if m.primary = last_msg.primary then l.dropLast ++ [m] else l ++ [m]
  | none => l ++ [m]

/-- Embeds `MsgQueue.append` (src/msg/msg.py:213-223). -/
def MsgQueue.append (q : MsgQueue) (m : Msg) : MsgQueue :=
  { q with queue := pushLast q.queue m }

/-- Embeds `MsgQueue.clear` (src/msg/msg.py:225-229). -/
def MsgQueue.clear (q : MsgQueue) : MsgQueue :=
  { q with queue := [] }

/-- The entry dict built by `MsgQueue.get_v` (src/msg/msg.py:238-250). -/
structure Entry where
  index : Value
  fname : String
  lineno : Nat
  cond : String
  varE : String
  primaryE : String
  context : String
  value : List SampleV
deriving DecidableEq

/-- Embeds `MsgQueue.get_v` (src/msg/msg.py:238-250). -/
def MsgQueue.get_v (q : MsgQueue) : Entry :=
  { index := q.idx, fname := q.fname, lineno := q.lineno, cond := q.cond,
    varE := q.varE, primaryE := q.primaryE, context := q.context,
    value := q.queue.map Msg.get_v }

/-- Specification-side companion of the retention rule, written from the
spec's words ("exactly one retained Sample per distinct maximal run of equal
primary keys", namely the last sample of each run): keep an element only when
the next element starts a new run. -/
def lastOfEachRun : List Msg → List Msg
  | [] => []
  | [m] => [m]
  | m :: m2 :: rest =>
    if m.primary = m2.primary then lastOfEachRun (m2 :: rest)
    else m :: lastOfEachRun (m2 :: rest)

lemma pushLast_concat (l : List Msg) (m x : Msg) :
    pushLast (l ++ [m]) x =
      if x.primary = m.primary then l ++ [x] else (l ++ [m]) ++ [x] := by
  unfold pushLast
  rw [List.getLast?_concat]
  simp [List.dropLast_concat]

lemma foldl_pushLast_concat (ms : List Msg) :
    ∀ (l : List Msg) (m : Msg),
      List.foldl pushLast (l ++ [m]) ms = l ++ lastOfEachRun (m :: ms) := by
  induction ms with
  | nil => intro l m; simp [lastOfEachRun]
  | cons x ms ih =>
    intro l m
    rw [List.foldl_cons, pushLast_concat]
    by_cases h : x.primary = m.primary
    · rw [if_pos h, ih l x]
      have : m.primary = x.primary := h.symm
      simp [lastOfEachRun, this]
    · rw [if_neg h, ih (l ++ [m]) x]
      have : ¬ m.primary = x.primary := fun hc => h hc.symm
      simp [lastOfEachRun, this]

lemma foldl_pushLast_nil (ms : List Msg) :
    List.foldl pushLast [] ms = lastOfEachRun ms := by
  cases ms with
  | nil => rfl
  | cons x ms =>
    rw [List.foldl_cons]
    have h0 : pushLast [] x = [] ++ [x] := rfl
    rw [h0, foldl_pushLast_concat ms [] x]
    simp

lemma MsgQueue.foldl_append_queue (ms : List Msg) (q : MsgQueue) :
    (List.foldl MsgQueue.append q ms).queue = List.foldl pushLast q.queue ms := by
  induction ms generalizing q with
  | nil => rfl
  | cons x ms ih => rw [List.foldl_cons, List.foldl_cons, ih]; rfl

/-- C3 (confirmed): for every observation slot and every sequence of samples
appended to it (`MsgQueue.append`, src/msg/msg.py:213-223), the slot retains
exactly one sample per maximal run of consecutive equal primary keys, namely
the last sample of each run. -/
theorem retention_collapses_runs (q : MsgQueue) (ms : List Msg)
    (hq : q.queue = []) :
    (List.foldl MsgQueue.append q ms).queue = lastOfEachRun ms := by
  rw [MsgQueue.foldl_append_queue, hq, foldl_pushLast_nil]

/-- Witness for C3: three samples for one slot with primary keys a, a, b
collapse to two retained samples, the second a and then b. -/
theorem retention_collapses_runs_witness :
    (List.foldl MsgQueue.append
      { idx := .vint 0, fname := "f.py", lineno := 1, cond := "True",
        varE := "x", primaryE := "k", context := "x = 1", queue := [] }
      [ ⟨.vint 0, .vstr "line", .vstr "v1", .vstr "a"⟩,
        ⟨.vint 0, .vstr "line", .vstr "v2", .vstr "a"⟩,
        ⟨.vint 0, .vstr "line", .vstr "v3", .vstr "b"⟩ ]).queue =
      [ ⟨.vint 0, .vstr "line", .vstr "v2", .vstr "a"⟩,
        ⟨.vint 0, .vstr "line", .vstr "v3", .vstr "b"⟩ ] := by
  have h := retention_collapses_runs
    { idx := .vint 0, fname := "f.py", lineno := 1, cond := "True",
      varE := "x", primaryE := "k", context := "x = 1", queue := [] }
    [ ⟨.vint 0, .vstr "line", .vstr "v1", .vstr "a"⟩,
      ⟨.vint 0, .vstr "line", .vstr "v2", .vstr "a"⟩,
      ⟨.vint 0, .vstr "line", .vstr "v3", .vstr "b"⟩ ] rfl
  rw [h]
  decide

/-! ## The sample aggregator: `MsgQueueMgr` (src/msg/msg.py:255-401) -/

/-- The `data` field of a report dict: `_make_common_msg` puts the list of
entry dicts there, `_make_eof_msg` puts the literal list `['EOF']`
(src/msg/msg.py:384, 398). -/
inductive RData where
  | dataEntries (v : List Entry)
  | dataEOF
deriving DecidableEq

/-- The check `'EOF' in msg_dict['data']` performed by the worker
(src/msg/msg.py:100): true on `['EOF']`, false on a list of entry dicts
(in Python, `'EOF' in [<dict>, ...]` is `False`). -/
def RData.hasEOF : RData → Bool
  | .dataEntries _ => false
  | .dataEOF => true

/-- A report dict as built by `_make_common_msg` / `_make_eof_msg`
(src/msg/msg.py:368-401).  `time.time()` is modelled by the aggregator's
abstract clock. -/
structure Report where
  index : Nat
  time : Nat
  name : String
  rtype : String
  data : RData
deriving DecidableEq

/-- State of the `MsgQueueMgr` singleton (src/msg/msg.py:255-291) that the
ingestion path touches.  `idx2queue` is the dict of observation slots as an
association list keyed by slot index, `out` is the sequence of reports put
on the shared multiprocessing queue (`self.queue.put`, in order), `joined`
records that `wait_subprocess` was invoked, and `clock` stands for
`time.time()`. -/
structure MgrState where
  idx2queue : List MsgQueue
  var_limit : Nat
  var_cnt : Nat
  msg_cnt : Nat
  proc_num : Nat
  name : String
  clock : Nat
  out : List Report
  joined : Bool
deriving DecidableEq

/-- Embeds `MsgQueueMgr._make_common_msg` (src/msg/msg.py:368-390): snapshot
every non-empty slot via `get_v`, clear those slots, build the report dict,
increment the report counter. -/
def make_common_msg (st : MgrState) : Report × MgrState :=
  let vec := (st.idx2queue.filter (fun q => q.queue.length > 0)).map MsgQueue.get_v
  let cleared := st.idx2queue.map (fun q => if q.queue.length > 0 then q.clear else q)
  (⟨st.msg_cnt, st.clock, st.name, "varcol_message", .dataEntries vec⟩,
   { st with idx2queue := cleared, msg_cnt := st.msg_cnt + 1 })

/-- Embeds `MsgQueueMgr._make_eof_msg` (src/msg/msg.py:392-401). -/
def make_eof_msg (st : MgrState) : Report × MgrState :=
  (⟨st.msg_cnt, st.clock, st.name, "eof_message", .dataEOF⟩,
   { st with msg_cnt := st.msg_cnt + 1 })

/-- Embeds `MsgQueueMgr._publish_msg` (src/msg/msg.py:358-366):
`self.queue.put(msg)`. -/
def publish_msg (st : MgrState) (r : Report) : MgrState :=
  { st with out := st.out ++ [r] }

/-- Embeds `MsgQueueMgr.stop_subprocess` (src/msg/msg.py:323-330): build the
eof report once, put it on the shared queue once per worker process, then
join the workers (`wait_subprocess`). -/
def stop_subprocess (st : MgrState) : MgrState :=
  let (e, st1) := make_eof_msg st
  let st2 := { st1 with out := st1.out ++ List.replicate st1.proc_num e }
  { st2 with joined := true }

/-- Embeds `MsgQueueMgr.__call__` (src/msg/msg.py:332-356), the ingestion of
one sample.  The source raises `KeyError` when the sample's index has no
preconfigured slot (`self.idx2queue[one_var.idx]`); this is the `Except.error`
case. -/
def mgrCall (st0 : MgrState) (var : Msg) : Except Unit MgrState :=
  let st := { st0 with var_cnt := st0.var_cnt + 1 }
  if var.value = Value.vstr "EOF" then
    let (r, st1) := make_common_msg st
    Except.ok (stop_subprocess (publish_msg st1 r))
  else
    let st1 :=
      if st.var_cnt = st.var_limit then
        let (r, st') := make_common_msg st
        { publish_msg st' r with var_cnt := 0 }
      else st
    if st1.idx2queue.any (fun q => q.idx = var.idx) then
      Except.ok { st1 with
        idx2queue := st1.idx2queue.map
          (fun q => if q.idx = var.idx then q.append var else q) }
    else Except.error ()

/-- Ingest a list of samples in order, stopping at the first error. -/
def mgrRun (st : MgrState) : List Msg → Except Unit MgrState
  | [] => Except.ok st
  | v :: vs => (mgrCall st v).bind (fun st' => mgrRun st' vs)

/-! Concrete scenario of claim C1: `batchLimit=3`, one worker, one slot for
index `0`, three samples with primary keys a, a, b ingested in order. -/

def slot0 : MsgQueue :=
  { idx := .vint 0, fname := "f.py", lineno := 1, cond := "True",
    varE := "x", primaryE := "k", context := "x = 1", queue := [] }

def st0 : MgrState :=
  { idx2queue := [slot0], var_limit := 3, var_cnt := 0, msg_cnt := 0,
    proc_num := 1, name := "vca", clock := 0, out := [], joined := false }

def sampleA1 : Msg := ⟨.vint 0, .vstr "line", .vstr "v1", .vstr "a"⟩
def sampleA2 : Msg := ⟨.vint 0, .vstr "line", .vstr "v2", .vstr "a"⟩
def sampleB : Msg := ⟨.vint 0, .vstr "line", .vstr "v3", .vstr "b"⟩

def scenarioRun : Except Unit MgrState := mgrRun st0 [sampleA1, sampleA2, sampleB]

/-- The retained-value list of the single entry of the single automatically
flushed report of the C1 scenario, when the run has that exact shape. -/
def scenarioEntryVals : Option (List SampleV) :=
  match scenarioRun with
  | .ok s =>
    match s.out with
    | [r] =>
      match r.data with
      | .dataEntries [e] => some e.value
      | _ => none
    | _ => none
  | .error _ => none

/-- C1 (counterexample): in the scenario of the claim the automatically
flushed report's entry for index 0 contains exactly one retained value (the
collapsed a), not two — `__call__` checks the batch counter and flushes
before appending the triggering sample to its slot
(src/msg/msg.py:349-356). -/
theorem flush_excludes_trigger_cex :
    scenarioEntryVals = some [Msg.get_v sampleA2] ∧
      scenarioEntryVals ≠ some [Msg.get_v sampleA2, Msg.get_v sampleB] := by
  constructor
  · rfl
  · decide

/-- C1 (amended): `__call__` increments the counter, flushes when it reaches
the batch limit, and only then applies the retention rule, so the flushed
report excludes the triggering sample.  In the claim's scenario the flushed
report's entry for index 0 holds exactly the collapsed a, and the slot is
left holding b for the next flush. -/
theorem flush_before_append :
    scenarioEntryVals = some [Msg.get_v sampleA2] ∧
      (scenarioRun.toOption.map (fun s => s.out.length) = some 1) ∧
      (scenarioRun.toOption.map (fun s => s.idx2queue.map MsgQueue.queue) =
        some [[sampleB]]) ∧
      (scenarioRun.toOption.map MgrState.var_cnt = some 0) := by
  refine ⟨rfl, rfl, rfl, rfl⟩

/-- The flush report built by `_make_common_msg` from a given aggregator
state. -/
def flushReport (st : MgrState) : Report :=
  ⟨st.msg_cnt, st.clock, st.name, "varcol_message",
   .dataEntries ((st.idx2queue.filter (fun q => 0 < q.queue.length)).map
     MsgQueue.get_v)⟩

/-- The end-of-stream report built by `_make_eof_msg` right after the final
flush. -/
def eofReport (st : MgrState) : Report :=
  ⟨st.msg_cnt + 1, st.clock, st.name, "eof_message", .dataEOF⟩

lemma mgrCall_eof (st : MgrState) (v : Msg) (h : v.value = Value.vstr "EOF") :
    mgrCall st v = Except.ok
      { idx2queue := st.idx2queue.map
          (fun q => if 0 < q.queue.length then q.clear else q),
        var_limit := st.var_limit, var_cnt := st.var_cnt + 1,
        msg_cnt := st.msg_cnt + 1 + 1, proc_num := st.proc_num,
        name := st.name, clock := st.clock,
        out := st.out ++ flushReport st ::
          List.replicate st.proc_num (eofReport st),
        joined := true } := by
  simp [mgrCall, make_common_msg, publish_msg, stop_subprocess, make_eof_msg,
    flushReport, eofReport, h]

/-- C6 (confirmed): the aggregator's end-of-stream path (src/msg/msg.py:340-347
and 323-330) first enqueues the final flush report (buffered samples are not
lost) and then exactly one end-of-stream report per configured worker —
`proc_num` sentinel enqueues — and this holds for every aggregator state,
in particular when zero data reports were ever produced. -/
theorem eof_flush_then_sentinels (st : MgrState) (v : Msg)
    (h : v.value = Value.vstr "EOF") :
    (mgrCall st v).toOption.map MgrState.out =
      some (st.out ++ [flushReport st] ++
        List.replicate st.proc_num (eofReport st)) := by
  rw [mgrCall_eof st v h]
  simp only [Except.toOption, Option.map_some']
  simp

/-- A fresh two-worker aggregator state that has produced zero data
reports. -/
def freshMgr2 : MgrState :=
  { idx2queue := [], var_limit := 3, var_cnt := 0, msg_cnt := 0,
    proc_num := 2, name := "vca", clock := 0, out := [], joined := false }

/-- Witness for C6: a fresh aggregator with two workers and no data report
ever produced enqueues the (empty) flush report and then exactly two
sentinels. -/
theorem eof_flush_then_sentinels_witness :
    (mgrCall freshMgr2
       ⟨Value.vnone, Value.vnone, Value.vstr "EOF", Value.vnone⟩).toOption.map
        MgrState.out =
      some (freshMgr2.out ++ [flushReport freshMgr2] ++
        List.replicate freshMgr2.proc_num (eofReport freshMgr2)) := by
  exact eof_flush_then_sentinels freshMgr2
    ⟨Value.vnone, Value.vnone, Value.vstr "EOF", Value.vnone⟩ rfl

/-- C9 (confirmed): any ingested sample whose value equals the string `'EOF'`
— whatever its index, event and primary key — is treated by
`MsgQueueMgr.__call__` (src/msg/msg.py:340-347) as the end-of-stream signal:
it triggers the final flush, the per-worker sentinel enqueues and the worker
join, and the sample itself is never stored in any observation slot (every
slot ends empty). -/
theorem value_eof_terminates_pipeline (st : MgrState) (i e p : Value) :
    ∃ st', mgrCall st ⟨i, e, Value.vstr "EOF", p⟩ = Except.ok st' ∧
      st'.joined = true ∧
      (∀ q ∈ st'.idx2queue, q.queue = []) ∧
      (∃ r, r.rtype = "varcol_message" ∧
        st'.out = st.out ++ [r] ++ List.replicate st.proc_num (eofReport st)) := by
  refine ⟨_, mgrCall_eof st ⟨i, e, Value.vstr "EOF", p⟩ rfl, rfl, ?_, ?_⟩
  · intro q hq
    simp only [List.mem_map] at hq
    obtain ⟨q0, _, rfl⟩ := hq
    by_cases h0 : 0 < q0.queue.length
    · simp [h0, MsgQueue.clear]
    · simp only [h0, ite_false, if_neg]
      exact List.length_eq_zero.mp (Nat.eq_zero_of_not_pos h0)
  · exact ⟨flushReport st, rfl, by simp⟩

/-! ## The transport worker: `IoLoop` (src/msg/msg.py:14-167)

The worker runs a cooperative event loop: a periodic tick invokes
`IoLoop.__call__` and the nsq client invokes `IoLoop.callback_rec` once per
publish when the broker's response arrives.  We model one execution as a
list of events folded over a step function.  A tick carries the front of the
shared queue as seen by the worker (`none` when `queue.empty()` was true);
a callback carries the kind of publish it answers (handshake or data) and
whether the response contains `'OK'`. -/

/-- Which publish a broker response answers: the handshake publish
(src/msg/msg.py:73) or a data/report publish (src/msg/msg.py:107). -/
inductive PubKind where
  | shake
  | data
deriving DecidableEq

/-- One scheduling event of a worker's life. -/
inductive IoEvent where
  | tick (front : Option Report)
  | cbOk (k : PubKind)
  | cbFail (k : PubKind)
deriving DecidableEq

/-- The configuration the worker reads (src/msg/msg.py:30-47):
`file_mode` and `wrong_limit` (the failure budget `wrong_msg_allow`). -/
structure IoConf where
  file_mode : Bool
  wrong_msg_allow : Nat
deriving DecidableEq

/-- Worker state (src/msg/msg.py:26-53) plus the file sink and scheduling
bookkeeping.  `inflight_shake` / `inflight_data` count publishes whose
broker response has not yet been delivered (a callback can only answer an
outstanding publish); `pub_attempts` counts every `write.pub` call;
`file_buf` / `file_disk` model the sink file's unflushed buffer and flushed
content; `ok_shake_acks` / `ok_data_acks` are ghost counters of delivered OK
responses by publish kind, used only to state invariants — no step reads
them. -/
structure IoState where
  shake_flag : Bool := true
  eof_flag : Bool := false
  msg_cnt : Nat := 0
  ok_cnt : Nat := 0
  wrong_msg_cnt : Nat := 0
  mutex : Bool := false
  stopped : Bool := false
  inflight_shake : Nat := 0
  inflight_data : Nat := 0
  pub_attempts : Nat := 0
  file_buf : List String := []
  file_disk : List String := []
  open_count : Nat := 1
  closed : Bool := false
  ok_shake_acks : Nat := 0
  ok_data_acks : Nat := 0
deriving DecidableEq

/-- Abstraction of `json.dumps(msg_dict)` (src/msg/msg.py:102): some string
determined by the report. -/
def Report.serialize (r : Report) : String :=
  r.name ++ "#" ++ toString r.index ++ "#" ++ r.rtype

/-- The state of a worker just after `IoLoop.__init__` (src/msg/msg.py:17-54):
handshake pending, all counters zero, sink file opened once. -/
def initIoState : IoState := {}

def IoState.inflight (s : IoState) : PubKind → Nat
  | .shake => s.inflight_shake
  | .data => s.inflight_data

/-- One `IoLoop.__call__` tick (src/msg/msg.py:56-126).  `front` is what the
queue offers: `none` models `queue.empty()`, `some r` models `queue.get()`
returning `r`.  After `self.stop()` the tornado loop is stopped, so no
further tick or callback fires: a stopped state absorbs every event. -/
def tickStep (cf : IoConf) (s : IoState) (front : Option Report) : IoState :=
  if s.mutex then s
  else
    let s1 :=
      if s.shake_flag then
        -- shake hands: publish the handshake payload (line 73)
        { s with inflight_shake := s.inflight_shake + 1,
                 pub_attempts := s.pub_attempts + 1 }
      else if s.eof_flag then
        -- draining: stop once enough OKs arrived (lines 80-93)
        if s.msg_cnt ≤ s.ok_cnt then { s with stopped := true } else s
      else
        match front with
        | none => s
        | some r =>
          -- dequeue, set eof on sentinel, publish, mirror to file,
          -- count the publish (lines 97-116)
          let sa := if r.data.hasEOF then { s with eof_flag := true } else s
          let sb := { sa with inflight_data := sa.inflight_data + 1,
                              pub_attempts := sa.pub_attempts + 1 }
          let sc :=
            if cf.file_mode then
              let sw := { sb with
                file_buf := sb.file_buf ++ [r.serialize ++ "\n"] }
              { sw with file_disk := sw.file_disk ++ sw.file_buf,
                        file_buf := [] }
            else sb
          { sc with msg_cnt := sc.msg_cnt + 1 }
    -- failure budget check, after everything else (lines 119-122)
    if cf.wrong_msg_allow < s1.wrong_msg_cnt then { s1 with stopped := true }
    else s1

/-- One `IoLoop.callback_rec` invocation (src/msg/msg.py:128-144) for a
response containing `'OK'`, answering an outstanding publish of kind `k`. -/
def cbOkStep (s : IoState) (k : PubKind) : IoState :=
  if s.inflight k = 0 then s
  else
    let s1 :=
      match k with
      | .shake => { s with inflight_shake := s.inflight_shake - 1,
                           ok_shake_acks := s.ok_shake_acks + 1 }
      | .data => { s with inflight_data := s.inflight_data - 1,
                          ok_data_acks := s.ok_data_acks + 1 }
    if s1.shake_flag then { s1 with shake_flag := false }
    else { s1 with ok_cnt := s1.ok_cnt + 1 }

/-- One `IoLoop.callback_rec` invocation for a response not containing
`'OK'`. -/
def cbFailStep (s : IoState) (k : PubKind) : IoState :=
  if s.inflight k = 0 then s
  else
    let s1 :=
      match k with
      | .shake => { s with inflight_shake := s.inflight_shake - 1 }
      | .data => { s with inflight_data := s.inflight_data - 1 }
    { s1 with wrong_msg_cnt := s1.wrong_msg_cnt + 1 }

/-- The worker's transition function. -/
def ioStep (cf : IoConf) (s : IoState) (e : IoEvent) : IoState :=
  if s.stopped then s
  else
    match e with
    | .tick front => tickStep cf s front
    | .cbOk k => cbOkStep s k
    | .cbFail k => cbFailStep s k

/-- Run a worker from `__init__` through a list of events. -/
def runEvents (cf : IoConf) (es : List IoEvent) : IoState :=
  es.foldl (ioStep cf) initIoState

/-- Embeds `IoLoop.__del__` (src/msg/msg.py:163-167): the sink file is closed
when the worker object is destroyed, i.e. when the stopped worker's process
exits. -/
def ioDel (s : IoState) : IoState :=
  { s with closed := true }

/-- C4 (counterexample): the invariant `ok_cnt ≤ msg_cnt` can be violated.
With two handshake publishes outstanding (the tick re-publishes the handshake
every millisecond until an acknowledgment arrives, src/msg/msg.py:72-73), the
first OK response clears `shake_flag` and the second then increments `ok_cnt`
(src/msg/msg.py:138-142) although no data report was ever published:
`ok_cnt = 1 > 0 = msg_cnt`. -/
theorem ack_gt_published_cex :
    (runEvents ⟨false, 10⟩
      [.tick none, .tick none, .cbOk .shake, .cbOk .shake]).ok_cnt = 1 ∧
    (runEvents ⟨false, 10⟩
      [.tick none, .tick none, .cbOk .shake, .cbOk .shake]).msg_cnt = 0 := by
  decide

/-- The inductive invariant behind the amended C4: data acknowledgments never
outnumber data publishes, and `ok_cnt` counts exactly the OK responses
delivered after the handshake flag was cleared. -/
def IoInv (s : IoState) : Prop :=
  s.inflight_data + s.ok_data_acks ≤ s.msg_cnt ∧
  (s.shake_flag = true →
    s.ok_cnt = 0 ∧ s.ok_data_acks = 0 ∧ s.ok_shake_acks = 0) ∧
  (s.shake_flag = false → s.ok_cnt + 1 = s.ok_data_acks + s.ok_shake_acks)

lemma ioInv_init : IoInv initIoState := by
  refine ⟨Nat.le_refl 0, fun _ => ⟨rfl, rfl, rfl⟩, fun h => ?_⟩
  simp [initIoState] at h

lemma tickStep_core (cf : IoConf) (s : IoState) (front : Option Report) :
    ((tickStep cf s front).shake_flag = s.shake_flag ∧
     (tickStep cf s front).ok_cnt = s.ok_cnt ∧
     (tickStep cf s front).ok_data_acks = s.ok_data_acks ∧
     (tickStep cf s front).ok_shake_acks = s.ok_shake_acks) ∧
    (((tickStep cf s front).inflight_data = s.inflight_data ∧
      (tickStep cf s front).msg_cnt = s.msg_cnt) ∨
     ((tickStep cf s front).inflight_data = s.inflight_data + 1 ∧
      (tickStep cf s front).msg_cnt = s.msg_cnt + 1)) := by
  unfold tickStep
  repeat' split
  all_goals simp [apply_ite]

lemma ioInv_step (cf : IoConf) (s : IoState) (e : IoEvent) (h : IoInv s) :
    IoInv (ioStep cf s e) := by
  obtain ⟨h1, h2, h3⟩ := h
  by_cases hst : s.stopped = true
  · have : ioStep cf s e = s := by simp [ioStep, hst]
    rw [this]; exact ⟨h1, h2, h3⟩
  cases e with
  | tick front =>
    rw [show ioStep cf s (.tick front) = tickStep cf s front from by
      simp [ioStep, hst]]
    obtain ⟨⟨c1, c2, c3, c4⟩, c5⟩ := tickStep_core cf s front
    unfold IoInv
    rw [c1, c2, c3, c4]
    rcases c5 with ⟨d1, d2⟩ | ⟨d1, d2⟩ <;> rw [d1, d2] <;>
      exact ⟨by omega, h2, h3⟩
  | cbOk k =>
    rw [show ioStep cf s (.cbOk k) = cbOkStep s k from by simp [ioStep, hst]]
    by_cases hk : s.inflight k = 0
    · rw [cbOkStep.eq_def, if_pos hk]; exact ⟨h1, h2, h3⟩
    rw [cbOkStep.eq_def, if_neg hk]
    cases k with
    | shake =>
      by_cases hs : s.shake_flag = true
      · obtain ⟨ha, hb, hc⟩ := h2 hs
        simp only [IoInv]
        simp [hs]
        omega
      · rw [Bool.not_eq_true] at hs
        have h3' := h3 hs
        simp only [IoInv]
        simp [hs]
        omega
    | data =>
      simp only [IoState.inflight] at hk
      by_cases hs : s.shake_flag = true
      · obtain ⟨ha, hb, hc⟩ := h2 hs
        simp only [IoInv]
        simp [hs]
        omega
      · rw [Bool.not_eq_true] at hs
        have h3' := h3 hs
        simp only [IoInv]
        simp [hs]
        omega
  | cbFail k =>
    rw [show ioStep cf s (.cbFail k) = cbFailStep s k from by
      simp [ioStep, hst]]
    by_cases hk : s.inflight k = 0
    · rw [cbFailStep.eq_def, if_pos hk]; exact ⟨h1, h2, h3⟩
    rw [cbFailStep.eq_def, if_neg hk]
    cases k with
    | shake =>
      refine ⟨by simpa using h1, ?_, ?_⟩
      · intro hs; simp only at hs; simpa using h2 hs
      · intro hs; simp only at hs; simpa using h3 hs
    | data =>
      simp only [IoState.inflight] at hk
      refine ⟨by simp; omega, ?_, ?_⟩
      · intro hs; simp only at hs; simpa using h2 hs
      · intro hs; simp only at hs; simpa using h3 hs

lemma ioInv_run (cf : IoConf) (es : List IoEvent) :
    IoInv (runEvents cf es) := by
  unfold runEvents
  have : ∀ (l : List IoEvent) (s : IoState), IoInv s →
      IoInv (l.foldl (ioStep cf) s) := by
    intro l
    induction l with
    | nil => intro s hs; exact hs
    | cons e l ih => intro s hs; exact ih _ (ioInv_step cf s e hs)
  exact this es initIoState ioInv_init

/-- C4 (amended): in every execution in which at most one handshake publish
is acknowledged OK — in particular whenever the handshake is acknowledged
before the tick re-publishes it — `ok_cnt` never exceeds `msg_cnt`, whatever
the interleaving of handshake publishes, data publishes and acknowledgment
callbacks. -/
theorem ack_le_published_of_single_shake_ok (cf : IoConf) (es : List IoEvent)
    (h : (runEvents cf es).ok_shake_acks ≤ 1) :
    (runEvents cf es).ok_cnt ≤ (runEvents cf es).msg_cnt := by
  obtain ⟨h1, h2, h3⟩ := ioInv_run cf es
  cases hs : (runEvents cf es).shake_flag with
  | true => obtain ⟨ha, _, _⟩ := h2 hs; omega
  | false => have := h3 hs; omega

/-- Witness for the amended C4: a single handshake publish acknowledged OK. -/
theorem ack_le_published_of_single_shake_ok_witness :
    (runEvents ⟨false, 10⟩ [.tick none, .cbOk .shake]).ok_shake_acks ≤ 1 ∧
    (runEvents ⟨false, 10⟩ [.tick none, .cbOk .shake]).ok_cnt ≤
      (runEvents ⟨false, 10⟩ [.tick none, .cbOk .shake]).msg_cnt :=
  ⟨by decide,
   ack_le_published_of_single_shake_ok ⟨false, 10⟩
     [.tick none, .cbOk .shake] (by decide)⟩

/-! ## An always-failing broker (claim C5) -/

/-- The canonical schedule against a broker that fails every publish: each
tick publishes (the handshake is never acknowledged OK, so `shake_flag` stays
true and every tick re-publishes the handshake payload), and the failure
response arrives before the next tick. -/
def failSched : Nat → List IoEvent
  | 0 => []
  | n + 1 => failSched n ++ [.tick none, .cbFail .shake]

lemma failSched_run (cf : IoConf) :
    ∀ j, j ≤ cf.wrong_msg_allow + 1 →
      runEvents cf (failSched j) =
        { initIoState with wrong_msg_cnt := j, pub_attempts := j } := by
  intro j
  induction j with
  | zero => intro _; rfl
  | succ j ih =>
    intro hj
    have hj' : j ≤ cf.wrong_msg_allow + 1 := by omega
    have hb : ¬ cf.wrong_msg_allow < j := by omega
    unfold runEvents at ih ⊢
    rw [failSched, List.foldl_append, ih hj']
    simp [ioStep, tickStep, cbFailStep, IoState.inflight, initIoState, hb]

lemma failSched_stops (cf : IoConf) :
    runEvents cf (failSched (cf.wrong_msg_allow + 2)) =
      { initIoState with wrong_msg_cnt := cf.wrong_msg_allow + 1,
                         pub_attempts := cf.wrong_msg_allow + 2,
                         inflight_shake := 1, stopped := true } := by
  have h := failSched_run cf (cf.wrong_msg_allow + 1) (Nat.le_refl _)
  unfold runEvents at h ⊢
  rw [show cf.wrong_msg_allow + 2 = (cf.wrong_msg_allow + 1) + 1 from rfl,
    failSched, List.foldl_append, h]
  simp [ioStep, tickStep, cbFailStep, IoState.inflight, initIoState]

/-- C5 (counterexample): with `failureBudget = 0` the claim predicts a stop
after exactly one publish attempt; in fact, after one publish attempt and its
failure response the worker is still running, and when it stops it has made
two publish attempts — the budget check (src/msg/msg.py:119-122) runs after
the tick's own publish (src/msg/msg.py:72-73). -/
theorem fail_budget_plus_one_cex :
    (runEvents ⟨false, 0⟩ (failSched 1)).stopped = false ∧
    (runEvents ⟨false, 0⟩ (failSched 1)).pub_attempts = 1 ∧
    (runEvents ⟨false, 0⟩ (failSched 2)).stopped = true ∧
    (runEvents ⟨false, 0⟩ (failSched 2)).pub_attempts = 2 := by
  decide

/-- C5 (amended): against a broker that fails every publish, the worker is
still running after `failureBudget + 1` publish attempts and stops during the
next tick, having made exactly `failureBudget + 2` publish attempts; the
Draining state is never reached (`eof_flag` stays false, no acknowledgment is
ever counted), and a tick whose failure count already exceeds the budget
stops the worker whatever its drain state. -/
theorem always_fail_stops_after_budget (cf : IoConf) (s : IoState)
    (hm : s.mutex = false) (hst : s.stopped = false)
    (hw : cf.wrong_msg_allow < s.wrong_msg_cnt) :
    (runEvents cf (failSched (cf.wrong_msg_allow + 1))).stopped = false ∧
    (runEvents cf (failSched (cf.wrong_msg_allow + 2))).stopped = true ∧
    (runEvents cf (failSched (cf.wrong_msg_allow + 2))).pub_attempts =
      cf.wrong_msg_allow + 2 ∧
    (runEvents cf (failSched (cf.wrong_msg_allow + 2))).eof_flag = false ∧
    (runEvents cf (failSched (cf.wrong_msg_allow + 2))).ok_cnt = 0 ∧
    (ioStep cf s (.tick none)).stopped = true := by
  rw [failSched_run cf (cf.wrong_msg_allow + 1) (Nat.le_refl _),
    failSched_stops cf]
  refine ⟨rfl, rfl, rfl, rfl, rfl, ?_⟩
  rw [show ioStep cf s (.tick none) = tickStep cf s none from by
    simp [ioStep, hst]]
  unfold tickStep
  rw [if_neg (by simp [hm])]
  by_cases hsh : s.shake_flag = true
  · simp [hsh, hw]
  · rw [Bool.not_eq_true] at hsh
    by_cases he : s.eof_flag = true
    · by_cases hd : s.msg_cnt ≤ s.ok_cnt <;> simp [hsh, he, hd, hw]
    · rw [Bool.not_eq_true] at he
      simp [hsh, he, hw]

/-- A worker in the draining state whose failure count already exceeds a
zero budget. -/
def drainOverBudget : IoState :=
  { mutex := false, stopped := false, wrong_msg_cnt := 3,
    eof_flag := true, shake_flag := false }

/-- Witness for the amended C5 at `failureBudget = 0` and a drain-state
worker already over budget. -/
theorem always_fail_stops_after_budget_witness :
    (drainOverBudget.mutex = false ∧ drainOverBudget.stopped = false ∧
      (0 : Nat) < 3) ∧
    ((runEvents ⟨false, 0⟩ (failSched 1)).stopped = false ∧
     (runEvents ⟨false, 0⟩ (failSched 2)).stopped = true ∧
     (runEvents ⟨false, 0⟩ (failSched 2)).pub_attempts = 2 ∧
     (runEvents ⟨false, 0⟩ (failSched 2)).eof_flag = false ∧
     (runEvents ⟨false, 0⟩ (failSched 2)).ok_cnt = 0 ∧
     (ioStep ⟨false, 0⟩ drainOverBudget (.tick none)).stopped = true) :=
  ⟨⟨rfl, rfl, by decide⟩,
   always_fail_stops_after_budget ⟨false, 0⟩ drainOverBudget rfl rfl
     (by decide)⟩

/-- C7 (confirmed): a worker that dequeues the end-of-stream sentinel does
not merely set the drain flag — it also publishes the sentinel report itself
and counts it in `msg_cnt` (src/msg/msg.py:97-116), mirroring it to the file
sink in file mode; the handshake publish is never counted in `msg_cnt`
(src/msg/msg.py:72-73), and an OK acknowledgment that arrives while the
handshake flag is still set clears the flag instead of incrementing `ok_cnt`
(src/msg/msg.py:138-142); hence the drain condition `ok_cnt ≥ msg_cnt`
(src/msg/msg.py:92) also waits for the sentinel's own acknowledgment. -/
theorem sentinel_published_and_counted (cf : IoConf)
    (s s2 s3 s4 : IoState) (r : Report)
    (hst : s.stopped = false) (hm : s.mutex = false)
    (hsh : s.shake_flag = false) (he : s.eof_flag = false)
    (hr : r.data.hasEOF = true)
    (h2a : s2.stopped = false) (h2b : s2.mutex = false)
    (h2c : s2.shake_flag = true)
    (h3a : s3.stopped = false) (h3b : s3.shake_flag = true)
    (h4a : s4.stopped = false) (h4b : s4.mutex = false)
    (h4c : s4.shake_flag = false) (h4d : s4.eof_flag = true)
    (h4e : s4.wrong_msg_cnt ≤ cf.wrong_msg_allow) :
    ((ioStep cf s (.tick (some r))).eof_flag = true ∧
     (ioStep cf s (.tick (some r))).msg_cnt = s.msg_cnt + 1 ∧
     (ioStep cf s (.tick (some r))).pub_attempts = s.pub_attempts + 1 ∧
     (cf.file_mode = true →
       (ioStep cf s (.tick (some r))).file_disk =
         s.file_disk ++ s.file_buf ++ [r.serialize ++ "\n"])) ∧
    ((ioStep cf s2 (.tick none)).msg_cnt = s2.msg_cnt ∧
     (ioStep cf s2 (.tick none)).pub_attempts = s2.pub_attempts + 1) ∧
    ((ioStep cf s3 (.cbOk .shake)).ok_cnt = s3.ok_cnt ∧
     (ioStep cf s3 (.cbOk .data)).ok_cnt = s3.ok_cnt) ∧
    ((ioStep cf s4 (.tick none)).stopped = true ↔ s4.msg_cnt ≤ s4.ok_cnt) := by
  have e1 : ioStep cf s (.tick (some r)) = tickStep cf s (some r) := by
    simp [ioStep, hst]
  have e2 : ioStep cf s2 (.tick none) = tickStep cf s2 none := by
    simp [ioStep, h2a]
  have e4 : ioStep cf s4 (.tick none) = tickStep cf s4 none := by
    simp [ioStep, h4a]
  have e3 : ∀ k, ioStep cf s3 (.cbOk k) = cbOkStep s3 k := by
    intro k; simp [ioStep, h3a]
  refine ⟨⟨?_, ?_, ?_, ?_⟩, ⟨?_, ?_⟩, ⟨?_, ?_⟩, ?_⟩
  · rw [e1]; simp [tickStep, hm, hsh, he, hr, apply_ite]
  · rw [e1]; simp [tickStep, hm, hsh, he, hr, apply_ite]
  · rw [e1]; simp [tickStep, hm, hsh, he, hr, apply_ite]
  · intro hf; rw [e1]; simp [tickStep, hm, hsh, he, hr, hf, apply_ite]
  · rw [e2]; simp [tickStep, h2b, h2c, apply_ite]
  · rw [e2]; simp [tickStep, h2b, h2c, apply_ite]
  · rw [e3]; unfold cbOkStep; split <;> simp [h3b]
  · rw [e3]; unfold cbOkStep; split <;> simp [h3b]
  · have hb : ¬ cf.wrong_msg_allow < s4.wrong_msg_cnt := by omega
    rw [e4]
    by_cases hd : s4.msg_cnt ≤ s4.ok_cnt <;>
      simp [tickStep, h4b, h4c, h4d, hb, hd, h4a, apply_ite]

/-- A worker in the draining state with one acknowledgment still pending and
no failures. -/
def drainWorker : IoState :=
  { shake_flag := false, eof_flag := true, msg_cnt := 2, ok_cnt := 1 }

/-- Witness for C7 at a concrete post-handshake worker and a concrete
sentinel report. -/
theorem sentinel_published_and_counted_witness :
    (((ioStep ⟨true, 3⟩ { shake_flag := false } (.tick (some ⟨1, 0, "vca",
        "eof_message", .dataEOF⟩))).eof_flag = true ∧
      (ioStep ⟨true, 3⟩ { shake_flag := false } (.tick (some ⟨1, 0, "vca",
        "eof_message", .dataEOF⟩))).msg_cnt =
        ({ shake_flag := false } : IoState).msg_cnt + 1 ∧
      (ioStep ⟨true, 3⟩ { shake_flag := false } (.tick (some ⟨1, 0, "vca",
        "eof_message", .dataEOF⟩))).pub_attempts =
        ({ shake_flag := false } : IoState).pub_attempts + 1 ∧
      ((⟨true, 3⟩ : IoConf).file_mode = true →
        (ioStep ⟨true, 3⟩ { shake_flag := false } (.tick (some ⟨1, 0, "vca",
          "eof_message", .dataEOF⟩))).file_disk =
          ({ shake_flag := false } : IoState).file_disk ++
            ({ shake_flag := false } : IoState).file_buf ++
            [Report.serialize ⟨1, 0, "vca", "eof_message", .dataEOF⟩ ++ "\n"])) ∧
     ((ioStep ⟨true, 3⟩ initIoState (.tick none)).msg_cnt =
        initIoState.msg_cnt ∧
      (ioStep ⟨true, 3⟩ initIoState (.tick none)).pub_attempts =
        initIoState.pub_attempts + 1) ∧
     ((ioStep ⟨true, 3⟩ initIoState (.cbOk .shake)).ok_cnt =
        initIoState.ok_cnt ∧
      (ioStep ⟨true, 3⟩ initIoState (.cbOk .data)).ok_cnt =
        initIoState.ok_cnt) ∧
     ((ioStep ⟨true, 3⟩ drainWorker (.tick none)).stopped = true ↔
        drainWorker.msg_cnt ≤ drainWorker.ok_cnt)) :=
  sentinel_published_and_counted ⟨true, 3⟩ { shake_flag := false }
    initIoState initIoState drainWorker
    ⟨1, 0, "vca", "eof_message", .dataEOF⟩
    rfl rfl rfl rfl rfl rfl rfl rfl rfl rfl rfl rfl rfl rfl (by decide)

/-! ## The file sink (claim C10) -/

lemma ioStep_file_fields (cf : IoConf) (s : IoState) (e : IoEvent) :
    (ioStep cf s e).open_count = s.open_count ∧
    (ioStep cf s e).closed = s.closed ∧
    (s.file_buf = [] → (ioStep cf s e).file_buf = []) := by
  unfold ioStep tickStep cbOkStep cbFailStep
  repeat' split
  all_goals simp [apply_ite]

lemma runEvents_file (cf : IoConf) (es : List IoEvent) :
    (runEvents cf es).file_buf = [] ∧
    (runEvents cf es).open_count = 1 ∧
    (runEvents cf es).closed = false := by
  unfold runEvents
  have key : ∀ (l : List IoEvent) (s : IoState),
      s.file_buf = [] → s.open_count = 1 → s.closed = false →
      (l.foldl (ioStep cf) s).file_buf = [] ∧
      (l.foldl (ioStep cf) s).open_count = 1 ∧
      (l.foldl (ioStep cf) s).closed = false := by
    intro l
    induction l with
    | nil => intro s h1 h2 h3; exact ⟨h1, h2, h3⟩
    | cons e l ih =>
      intro s h1 h2 h3
      obtain ⟨f1, f2, f3⟩ := ioStep_file_fields cf s e
      exact ih _ (f3 h1) (f1.trans h2) (f2.trans h3)
  exact key es initIoState rfl rfl rfl

/-- C10 (confirmed): with the file sink enabled, each published report is
written to the sink followed by the record separator and the sink is flushed
after every write (the unflushed buffer is empty after every event,
src/msg/msg.py:108-111); the sink file is opened exactly once, in
`__init__` (src/msg/msg.py:34), stays open for the worker's lifetime, and is
closed at teardown, by `__del__` when the stopped worker's process exits
(src/msg/msg.py:163-167). -/
theorem file_sink_contract (cf : IoConf) (es : List IoEvent) (s : IoState)
    (r : Report) (hf : cf.file_mode = true) (hst : s.stopped = false)
    (hm : s.mutex = false) (hsh : s.shake_flag = false)
    (he : s.eof_flag = false) :
    ((runEvents cf es).file_buf = [] ∧
     (runEvents cf es).open_count = 1 ∧
     (runEvents cf es).closed = false) ∧
    ((ioStep cf s (.tick (some r))).file_disk =
       s.file_disk ++ s.file_buf ++ [r.serialize ++ "\n"] ∧
     (ioStep cf s (.tick (some r))).file_buf = []) ∧
    ((ioDel (runEvents cf es)).closed = true ∧
     (ioDel (runEvents cf es)).open_count = 1) := by
  obtain ⟨b1, b2, b3⟩ := runEvents_file cf es
  have e1 : ioStep cf s (.tick (some r)) = tickStep cf s (some r) := by
    simp [ioStep, hst]
  refine ⟨⟨b1, b2, b3⟩, ⟨?_, ?_⟩, rfl, ?_⟩
  · rw [e1]
    by_cases heof : r.data.hasEOF = true <;>
      simp [tickStep, hm, hsh, he, hf, heof, apply_ite]
  · rw [e1]
    by_cases heof : r.data.hasEOF = true <;>
      simp [tickStep, hm, hsh, he, hf, heof, apply_ite]
  · simp [ioDel, b2]

/-- Witness for C10 with one idle tick and one concrete published report. -/
theorem file_sink_contract_witness :
    (((runEvents ⟨true, 3⟩ [.tick none]).file_buf = [] ∧
      (runEvents ⟨true, 3⟩ [.tick none]).open_count = 1 ∧
      (runEvents ⟨true, 3⟩ [.tick none]).closed = false) ∧
     ((ioStep ⟨true, 3⟩ { shake_flag := false } (.tick (some ⟨0, 0, "vca",
         "varcol_message", .dataEntries []⟩))).file_disk =
        ({ shake_flag := false } : IoState).file_disk ++
          ({ shake_flag := false } : IoState).file_buf ++
          [Report.serialize ⟨0, 0, "vca", "varcol_message", .dataEntries []⟩
            ++ "\n"] ∧
      (ioStep ⟨true, 3⟩ { shake_flag := false } (.tick (some ⟨0, 0, "vca",
         "varcol_message", .dataEntries []⟩))).file_buf = []) ∧
     ((ioDel (runEvents ⟨true, 3⟩ [.tick none])).closed = true ∧
      (ioDel (runEvents ⟨true, 3⟩ [.tick none])).open_count = 1)) :=
  file_sink_contract ⟨true, 3⟩ [.tick none] { shake_flag := false }
    ⟨0, 0, "vca", "varcol_message", .dataEntries []⟩ rfl rfl rfl rfl rfl

/-! ## The shutdown join: `MsgQueueMgr.wait_subprocess` (src/msg/msg.py:313-321)

`wait_subprocess` runs `for p in self.process_arr: p.join()`.  Each `p.join()`
is called with no timeout argument: it returns only once its worker process
has terminated, which happens exactly when the worker's event loop reaches
`stop()` (tornado stops, `nsq.run()` returns, `run_subprocess` returns and
the process exits).  We model a worker by the optional instant at which it
terminates (`none` = it never stops) and the join of the whole list by the
optional instant at which the last join returns (`none` = the join blocks
forever). -/

/-- `p.join()` with no timeout: returns at the worker's termination instant,
never on its own. -/
def pjoin (t : Option Nat) : Option Nat := t

/-- Embeds `MsgQueueMgr.wait_subprocess`: join every worker in turn. -/
def wait_subprocess (ts : List (Option Nat)) : Option Nat :=
  ts.foldl
    (fun acc t =>
      match acc, pjoin t with
      | some a, some b => some (max a b)
      | _, _ => none)
    (some 0)

/-- C8 (counterexample): the shutdown join has no fallback timeout and no
unjoined-worker report — on a worker that never terminates it blocks forever,
and a worker can run without ever stopping (here: four ticks with the
handshake unacknowledged leave the worker running with no failure on
record). -/
theorem join_unbounded_cex :
    wait_subprocess [none] = none ∧
    (runEvents ⟨false, 5⟩ (List.replicate 4 (IoEvent.tick none))).stopped
      = false := by
  constructor
  · rfl
  · decide

lemma wait_subprocess_isSome (ts : List (Option Nat))
    (h : ∀ t ∈ ts, Option.isSome t) : (wait_subprocess ts).isSome := by
  unfold wait_subprocess
  have key : ∀ (l : List (Option Nat)) (acc : Option Nat),
      acc.isSome → (∀ t ∈ l, Option.isSome t) →
      (l.foldl
        (fun acc t =>
          match acc, pjoin t with
          | some a, some b => some (max a b)
          | _, _ => none) acc).isSome := by
    intro l
    induction l with
    | nil => intro acc ha _; exact ha
    | cons t l ih =>
      intro acc ha hl
      obtain ⟨a, rfl⟩ := Option.isSome_iff_exists.mp ha
      obtain ⟨b, rfl⟩ := Option.isSome_iff_exists.mp
        (hl t (List.mem_cons_self t l))
      exact ih (some (max a b)) rfl
        (fun u hu => hl u (List.mem_cons_of_mem (some b) hu))
  exact key ts (some 0) rfl h

/-- C8 (amended): the shutdown join (`wait_subprocess`) completes exactly
when every worker terminates; a worker stopped with a fatal status — e.g. one
that exceeded its failure budget — has terminated, so it does not hang the
join.  But the wait is unbounded: `p.join()` carries no timeout and there is
no unjoined-worker report, so a worker that never stops blocks the join
forever. -/
theorem join_tolerates_fatal_workers (ts : List (Option Nat)) (cf : IoConf)
    (h : ∀ t ∈ ts, Option.isSome t) :
    (wait_subprocess ts).isSome ∧
    (runEvents cf (failSched (cf.wrong_msg_allow + 2))).stopped = true := by
  refine ⟨wait_subprocess_isSome ts h, ?_⟩
  rw [failSched_stops cf]

/-- Witness for the amended C8: two workers that terminate at instants 3 and
5, one of them having stopped fatally after exceeding a failure budget of
0. -/
theorem join_tolerates_fatal_workers_witness :
    (∀ t ∈ [some 3, some 5], Option.isSome t) ∧
    ((wait_subprocess [some 3, some 5]).isSome ∧
     (runEvents ⟨false, 0⟩ (failSched (0 + 2))).stopped = true) :=
  ⟨by decide, join_tolerates_fatal_workers [some 3, some 5] ⟨false, 0⟩
    (by decide)⟩

/-! ## The sample collector: `inject.VarCollector` (src/inject/inject.py:14-55)
driving `varcol.VarCollector.trace_dispatch` (src/varcol/varcol.py:72-92). -/

/-- Outcome of a Python `eval` as the running program's environment provides
it: a value, or a raised exception. -/
inductive EvalR (A : Type) where
  | ok (a : A)
  | err
deriving DecidableEq

/-- Embeds `eval_cond` (src/varcol/varcol.py:94-101): a failing evaluation is
treated as `True` ("the conservative thing to do is to collect"). -/
def eval_cond : EvalR Bool → Bool
  | .ok b => b
  | .err => true

/-- Embeds `eval_var` (src/varcol/varcol.py:103-108): a failing evaluation
yields Python's `None`. -/
def eval_var : EvalR Value → Value
  | .ok v => v
  | .err => Value.vnone

/-- The `cond` part of a collecting point: the literal `True` (the
`cond is True` shortcut of src/inject/inject.py:44) or an expression with its
evaluation outcome. -/
inductive CondSpec where
  | ctrue
  | cexpr (r : EvalR Bool)
deriving DecidableEq

/-- `cond is True or self.eval_cond(frame, cond)` (src/inject/inject.py:44). -/
def condPasses : CondSpec → Bool
  | .ctrue => true
  | .cexpr r => eval_cond r

/-- One `(cond, var, primary, idx)` tuple of a collecting point
(src/inject/inject.py:43), bundled with the evaluation outcomes the running
program yields for it. -/
structure CVar where
  cond : CondSpec
  var_r : EvalR Value
  primary_r : EvalR Value
  idx : Int
deriving DecidableEq

/-- Python dict insertion `vars[idx] = v` on an association list: overwrite
an existing key in place, else append (insertion order stands in for the
dict's iteration order). -/
def dictInsert (d : List (Int × Value × Value)) (k : Int)
    (v : Value × Value) : List (Int × Value × Value) :=
  if d.any (fun p => p.1 = k) then
    d.map (fun p => if p.1 = k then (k, v) else p)
  else d ++ [(k, v)]

/-- Collector state shared by `collect` and `trace_dispatch`: the `quitting`
flag (src/varcol/varcol.py:26), the `cp_frames` stack of frames with active
collecting points (src/varcol/varcol.py:24, a Python list used from its
end, initially `[(None,)]`), the messages handed to the pipe so far, and a
count of logged errors. -/
structure VcState where
  quitting : Bool := false
  cp_frames : List (Option Nat × List CVar) := [(none, [])]
  sent : List Msg := []
  err_log : Nat := 0
deriving DecidableEq

/-- The send loop of `collect` (src/inject/inject.py:50-52) inside the
surrounding try/except (lines 40, 53-55): messages are piped one by one;
`pipeOk m = false` models `self.pipe(msg)` raising, upon which the except
clause sets `quitting` and logs the traceback, and the remaining messages of
this event are dropped. -/
def sendVars (pipeOk : Msg → Bool) (ev : Value) :
    VcState → List (Int × Value × Value) → VcState
  | s, [] => s
  | s, (k, v, p) :: rest =>
    if pipeOk ⟨.vint k, ev, v, p⟩ then
      sendVars pipeOk ev { s with sent := s.sent ++ [⟨.vint k, ev, v, p⟩] }
        rest
    else { s with quitting := true, err_log := s.err_log + 1 }

/-- Embeds `VarCollector.collect` (src/inject/inject.py:31-55): build the
`vars` dict of guard-passing samples (evaluation failures yield `True`
conditions and `None` values, never an exception), then pipe each sample. -/
def collect (pipeOk : Msg → Bool) (s : VcState) (ev : Value)
    (cvs : List CVar) : VcState :=
  let vars := cvs.foldl
    (fun d cv =>
      if condPasses cv.cond then
        dictInsert d cv.idx (eval_var cv.var_r, eval_var cv.primary_r)
      else d)
    []
  sendVars pipeOk ev s vars

/-- The event kinds `sys.settrace` delivers. -/
inductive EvKind where
  | call
  | line
  | ret
  | exc
deriving DecidableEq

/-- The Python event string passed to `collect` as the sample's `event`. -/
def EvKind.str : EvKind → Value
  | .call => .vstr "call"
  | .line => .vstr "line"
  | .ret => .vstr "return"
  | .exc => .vstr "exception"

/-- One trace event: the frame it occurs in, its kind, and what
`get_loc_cvars` returns for the frame's current line (`none` when the line
has no collecting point), with evaluation outcomes attached. -/
structure TEvent where
  frame : Nat
  kind : EvKind
  loc_cvars : Option (List CVar)
deriving DecidableEq

/-- Embeds `VarCollector.trace_dispatch` (src/varcol/varcol.py:72-92): a set
`quitting` flag aborts everything; `call` and `exception` events return
early; if the current frame is on top of `cp_frames`, pop it and collect;
finally, a `line` event on a line with collecting points pushes the frame. -/
def trace_dispatch (pipeOk : Msg → Bool) (s : VcState) (e : TEvent) :
    VcState :=
  if s.quitting then s
  else if e.kind = .call then s
  else if e.kind = .exc then s
  else
    let s1 :=
      match s.cp_frames.getLast? with
      | some (some f, cvs) =>
        if f = e.frame then
          collect pipeOk { s with cp_frames := s.cp_frames.dropLast }
            e.kind.str cvs
        else s
      | _ => s
    match e.kind, e.loc_cvars with
    | .line, some cvs =>
      { s1 with cp_frames := s1.cp_frames ++ [(some e.frame, cvs)] }
    | _, _ => s1

/-- Run the tracer from a fresh collector over a list of events. -/
def runDispatch (pipeOk : Msg → Bool) (es : List TEvent) : VcState :=
  es.foldl (trace_dispatch pipeOk) {}

/-- A collecting point for index 0 whose evaluations succeed. -/
def cvIdx0 : CVar := ⟨.ctrue, .ok (.vstr "x0"), .ok (.vstr "p0"), 0⟩

/-- A collecting point for index 1 whose evaluations succeed. -/
def cvIdx1 : CVar := ⟨.ctrue, .ok (.vstr "x1"), .ok (.vstr "p1"), 1⟩

/-- Three line events in one frame: the first arms `cvIdx0`, the second
collects it and arms `cvIdx1`, the third would collect `cvIdx1`. -/
def threeLines : List TEvent :=
  [⟨7, .line, some [cvIdx0]⟩, ⟨7, .line, some [cvIdx1]⟩, ⟨7, .line, none⟩]

/-- A pipe that raises exactly on index 0's message. -/
def failOnIdx0 : Msg → Bool := fun m => decide (m.idx ≠ Value.vint 0)

/-- C2 (counterexample): a pipe error on the index-0 sample sets `quitting`
(src/inject/inject.py:53-54), and `trace_dispatch` then returns immediately
(src/varcol/varcol.py:73-74), so the index-1 sample of the next event is
never collected: nothing is sent at all, although with a healthy pipe the
same trace sends two samples.  A per-sample failure does abort the
collection of later samples. -/
theorem sample_error_aborts_collection_cex :
    (runDispatch failOnIdx0 threeLines).sent = [] ∧
    (runDispatch failOnIdx0 threeLines).quitting = true ∧
    (runDispatch (fun _ => true) threeLines).sent.length = 2 := by
  decide

lemma sendVars_true_quitting (ev : Value) (l : List (Int × Value × Value)) :
    ∀ s : VcState, (sendVars (fun _ => true) ev s l).quitting = s.quitting := by
  induction l with
  | nil => intro s; rfl
  | cons h t ih =>
    intro s
    obtain ⟨k, v, p⟩ := h
    simpa [sendVars] using ih _

/-- C2 (amended): an error in evaluating a sample's condition or value is
caught inside `eval_cond` / `eval_var` (condition treated as true, value
becomes `None`) and aborts nothing — with a healthy pipe, `collect` never
sets `quitting` whatever the evaluation outcomes; but an error raised in the
body of `collect` (e.g. by the pipe) is caught and logged, drops that sample
and the rest of that event's samples, and sets `quitting`, after which
`trace_dispatch` ignores every further event: the collection of all
subsequent samples is aborted. -/
theorem sample_error_sets_quitting (p : Msg → Bool) (s : VcState)
    (e : TEvent) (ev : Value) (cvs : List CVar) (cv : CVar)
    (hq : s.quitting = true)
    (hc : condPasses cv.cond = true)
    (hp : p ⟨.vint cv.idx, ev, eval_var cv.var_r, eval_var cv.primary_r⟩
      = false) :
    trace_dispatch p s e = s ∧
    (collect (fun _ => true) s ev cvs).quitting = s.quitting ∧
    eval_cond EvalR.err = true ∧
    eval_var EvalR.err = Value.vnone ∧
    collect p s ev [cv] =
      { s with quitting := true, err_log := s.err_log + 1 } := by
  refine ⟨?_, ?_, rfl, rfl, ?_⟩
  · simp [trace_dispatch, hq]
  · exact sendVars_true_quitting ev _ s
  · simp [collect, dictInsert, sendVars, hc, hp]

/-- Witness for the amended C2: a quitting collector, a collecting point
whose evaluations both fail, and a pipe that always raises. -/
theorem sample_error_sets_quitting_witness :
    (({ quitting := true } : VcState).quitting = true ∧
      condPasses CondSpec.ctrue = true ∧
      (fun (_ : Msg) => false)
        ⟨.vint 5, .vstr "line", eval_var EvalR.err, eval_var EvalR.err⟩
        = false) ∧
    (trace_dispatch (fun _ => false) { quitting := true } ⟨1, .line, none⟩ =
        { quitting := true } ∧
      (collect (fun _ => true) { quitting := true } (.vstr "line")
        [⟨.ctrue, .err, .err, 5⟩]).quitting =
        ({ quitting := true } : VcState).quitting ∧
      eval_cond EvalR.err = true ∧
      eval_var EvalR.err = Value.vnone ∧
      collect (fun _ => false) { quitting := true } (.vstr "line")
        [⟨.ctrue, .err, .err, 5⟩] =
        { quitting := true, err_log := 1 }) :=
  ⟨⟨rfl, rfl, rfl⟩,
   sample_error_sets_quitting (fun _ => false) { quitting := true }
     ⟨1, .line, none⟩ (.vstr "line") [⟨.ctrue, .err, .err, 5⟩]
     ⟨.ctrue, .err, .err, 5⟩ rfl rfl rfl⟩

end VCA
